import Mathlib

/-!
# Verification of the portfolio ledger and trade-execution bookkeeping

Shallow embedding of the `PortfolioService` ledger (`portfolio/services.py`,
`portfolio/models.py`), the trading execution paths
(`trading/execution.py`, `trading/services.py`) and the bot loop's signal
selection (`trading/management/commands/run_trading_bot.py`).

Conventions:
* Monetary amounts and prices are modelled exactly over `ℚ`; Python decimal
  literals (`0.0003`, `0.001`) are taken at their decimal value.
* Quantities are `ℤ` (Python `int`).
* `transaction.atomic` is modelled by `Except`: an operation that raises
  inside the transaction returns `.error` and the persisted state is the
  pre-call state (see `applyTrade`).
* Python `ZeroDivisionError` sites are explicit `.error divisionByZero`
  branches, since division in `ℚ` is total.
-/

instance {ε α : Type} [DecidableEq ε] [DecidableEq α] : DecidableEq (Except ε α) := fun x y =>
  match x, y with
  | .ok a, .ok b =>
      if h : a = b then isTrue (congrArg Except.ok h)
      else isFalse fun hc => h (Except.ok.inj hc)
  | .error a, .error b =>
      if h : a = b then isTrue (congrArg Except.error h)
      else isFalse fun hc => h (Except.error.inj hc)
  | .ok _, .error _ => isFalse fun hc => Except.noConfusion hc
  | .error _, .ok _ => isFalse fun hc => Except.noConfusion hc

/-- Trade action / signal type. `execute_trade` branches on the strings
`BUY` / `SELL` and silently does neither update for any other value;
trading signals additionally use `HOLD`. -/
inductive TradeAction
  | BUY
  | SELL
  | HOLD
deriving DecidableEq, Repr

/-- Embeds `portfolio.models.Position`: the aggregate holding for one
`(portfolio, symbol)` pair (unique together). -/
structure Position where
  total_quantity : ℤ
  average_price : ℚ
  invested_amount : ℚ
  is_open : Bool
deriving DecidableEq, Repr

/-- Embeds `portfolio.models.Trade`: one immutable trade row. `buy_amount`,
`profit`, `pnl_percent` are nullable columns. -/
structure Trade where
  symbol : String
  price : ℚ
  quantity : ℤ
  action : TradeAction
  brokerage_fee : ℚ
  buy_amount : Option ℚ
  profit : Option ℚ
  pnl_percent : Option ℚ
deriving DecidableEq, Repr

/-- The persisted ledger state of one portfolio: cash balance, the
position rows keyed by symbol (at most one row per symbol by the
`unique_together` constraint), and the trade rows (most recent first). -/
structure LedgerState where
  current_balance : ℚ
  positions : List (String × Position)
  trades : List Trade
deriving DecidableEq, Repr

/-- Errors raised inside `execute_trade` (Python `ValueError` /
`ZeroDivisionError`); any of them aborts the surrounding
`transaction.atomic` block. -/
inductive LedgerError
  | insufficientPosition
  | noOpenPosition
  | divisionByZero
deriving DecidableEq, Repr

/-- Embeds `Position.objects.get_or_create(portfolio, symbol)` lookup part:
the unique row for `sym`, regardless of `is_open`. -/
def lookupPos (ps : List (String × Position)) (sym : String) : Option Position :=
  (ps.find? fun e => e.1 = sym).map (·.2)

/-- Overwrite the unique row for `sym` (ORM `position.save()` on an
existing row). -/
def setPos (ps : List (String × Position)) (sym : String) (pos : Position) :
    List (String × Position) :=
  ps.map fun e => if e.1 = sym then (sym, pos) else e

/-- Embeds `Trade.save` (`portfolio/models.py` lines 93-98): derives
`buy_amount = price * quantity + brokerage_fee` for BUY rows. -/
def mkTrade (symbol : String) (price : ℚ) (quantity : ℤ) (action : TradeAction)
    (fee : ℚ) : Trade :=
  { symbol := symbol
    price := price
    quantity := quantity
    action := action
    brokerage_fee := fee
    buy_amount := if action = .BUY then some (price * quantity + fee) else none
    profit := none
    pnl_percent := none }

/-- Embeds `PortfolioService._execute_buy_trade`: debit `trade_amount + fee`,
then `get_or_create` the position; on create the position gets
`average_price = price` and `invested_amount = total_cost`; on update the
weighted average `total_invested / total_quantity` is recomputed
(Python raises `ZeroDivisionError` when the updated quantity is zero). -/
def execute_buy_trade (st : LedgerState) (sym : String) (price : ℚ) (quantity : ℤ)
    (trade_amount fee : ℚ) (t : Trade) : Except LedgerError LedgerState :=
  let total_cost := trade_amount + fee
  let balance' := st.current_balance - total_cost
  match lookupPos st.positions sym with
  | none =>
      .ok { current_balance := balance'
            positions := (sym, { total_quantity := quantity
                                 average_price := price
                                 invested_amount := total_cost
                                 is_open := true }) :: st.positions
            trades := t :: st.trades }
  | some pos =>
      let total_invested := pos.invested_amount + total_cost
      let total_quantity := pos.total_quantity + quantity
      if total_quantity = 0 then
        .error .divisionByZero
      else
        .ok { current_balance := balance'
              positions := setPos st.positions sym
                { total_quantity := total_quantity
                  average_price := total_invested / total_quantity
                  invested_amount := total_invested
                  is_open := pos.is_open }
              trades := t :: st.trades }

/-- Embeds `PortfolioService._execute_sell_trade`: credit `trade_amount - fee`,
require an open position, require `total_quantity >= quantity`, fill in
the trade's profit fields, decrement the quantity and either close the
position (leaving `invested_amount` untouched) or reduce
`invested_amount` by `average_price * quantity`. The profit-percent
division raises `ZeroDivisionError` when `average_price * quantity = 0`. -/
def execute_sell_trade (st : LedgerState) (sym : String) (price : ℚ) (quantity : ℤ)
    (trade_amount fee : ℚ) (t : Trade) : Except LedgerError LedgerState :=
  let net_amount := trade_amount - fee
  let balance' := st.current_balance + net_amount
  match lookupPos st.positions sym with
  | some pos =>
      if pos.is_open then
        if pos.total_quantity ≥ quantity then
          let avg := pos.average_price
          let profit := (price - avg) * quantity - fee
          if avg * quantity = 0 then
            .error .divisionByZero
          else
            let pct := profit / (avg * quantity) * 100
            let t' := { t with profit := some profit, pnl_percent := some pct }
            let q' := pos.total_quantity - quantity
            let pos' :=
              if q' = 0 then
                { pos with total_quantity := 0, is_open := false }
              else
                { pos with total_quantity := q'
                           invested_amount := pos.invested_amount - avg * quantity }
            .ok { current_balance := balance'
                  positions := setPos st.positions sym pos'
                  trades := t' :: st.trades }
        else
          .error .insufficientPosition
      else
        .error .noOpenPosition
  | none => .error .noOpenPosition

/-- Embeds `PortfolioService.execute_trade` (`portfolio/services.py` lines
45-86): inside one `transaction.atomic` block, compute
`brokerage_fee = trade_amount * 0.0003`, create the `Trade` row, then
run the BUY / SELL branch (any other action only records the trade).
There is no validation of `price` or `quantity`. An `.error` result
means the transaction aborted. -/
def execute_trade (st : LedgerState) (sym : String) (price : ℚ) (quantity : ℤ)
    (action : TradeAction) : Except LedgerError LedgerState :=
  let trade_amount := price * quantity
  let brokerage_fee := trade_amount * (3 / 10000)
  let t := mkTrade sym price quantity action brokerage_fee
  match action with
  | .BUY => execute_buy_trade st sym price quantity trade_amount brokerage_fee t
  | .SELL => execute_sell_trade st sym price quantity trade_amount brokerage_fee t
  | .HOLD => .ok { st with trades := t :: st.trades }

/-- The persisted state after a call to `execute_trade`:
`transaction.atomic` rolls every write back when the call raises. -/
def applyTrade (st : LedgerState) (sym : String) (price : ℚ) (quantity : ℤ)
    (action : TradeAction) : LedgerState :=
  match execute_trade st sym price quantity action with
  | .ok st' => st'
  | .error _ => st

/-- One trade request to the ledger. -/
structure TradeReq where
  symbol : String
  price : ℚ
  quantity : ℤ
  action : TradeAction
deriving DecidableEq, Repr

/-- Run a sequence of trade requests; the whole run fails as soon as one
call raises. -/
def execTrades (st : LedgerState) : List TradeReq → Except LedgerError LedgerState
  | [] => .ok st
  | r :: rs =>
      match execute_trade st r.symbol r.price r.quantity r.action with
      | .ok st' => execTrades st' rs
      | .error e => .error e

/-- The brokerage fee `execute_trade` computes internally for a request:
0.03 % of the gross amount. -/
def feeOf (r : TradeReq) : ℚ := r.price * r.quantity * (3 / 10000)

/-- Net effect of one successful trade request on the cash balance. -/
def balanceDelta (r : TradeReq) : ℚ :=
  match r.action with
  | .BUY => -(r.price * r.quantity + feeOf r)
  | .SELL => r.price * r.quantity - feeOf r
  | .HOLD => 0

/-- Deviation of a position from the `invested_amount =
average_price * total_quantity` invariant. -/
def devPos (pos : Position) : ℚ :=
  pos.invested_amount - pos.average_price * pos.total_quantity

/-- Gross cost of a BUY request including the internal fee. -/
def buyCost (r : TradeReq) : ℚ := r.price * r.quantity + feeOf r

/-- Net proceeds of a SELL request after the internal fee. -/
def sellProceeds (r : TradeReq) : ℚ := r.price * r.quantity - feeOf r

/-- Persisted state after a sequence of `execute_trade` calls (each call
is its own transaction; a failed run leaves the state of the last
successful prefix, and a fully successful run gives the `.ok` state). -/
def applyTrades (st : LedgerState) (l : List TradeReq) : LedgerState :=
  match execTrades st l with
  | .ok st' => st'
  | .error _ => st

/-- Python `int()` applied to a rational: truncation toward zero. -/
def ratTrunc (x : ℚ) : ℤ := if 0 ≤ x then ⌊x⌋ else -⌊-x⌋

/-- Embeds `Decimal(x).quantize(Decimal('0.01'), rounding=ROUND_HALF_UP)`:
round to 2 decimal places, ties away from zero. -/
def roundHalfUp2 (x : ℚ) : ℚ :=
  if 0 ≤ x then (⌊x * 100 + 1/2⌋ : ℚ) / 100 else -((⌊-x * 100 + 1/2⌋ : ℚ) / 100)

/-- Failure of an execution adapter (`(False, {'error': ...})`). -/
inductive ExecFailure
  | priceLookupFailed
  | orderRejected
deriving DecidableEq, Repr

/-- Embeds `TradingExecutor._execute_paper_trade` (`trading/execution.py` lines
140-165): look up the last traded price (`ltp = none` models the lookup
raising), apply the fixed 0.1 % slippage (up for BUY, down otherwise) and
quantize half-up to 2 decimals. The time-based paper order id carries no
information and is omitted. -/
def execute_paper_trade (ty : TradeAction) (ltp : Option ℚ) : Except ExecFailure ℚ :=
  match ltp with
  | none => .error .priceLookupFailed
  | some current_price =>
      let executed_price :=
        if ty = .BUY then current_price * (1 + 1/1000) else current_price * (1 - 1/1000)
      .ok (roundHalfUp2 executed_price)

/-- Embeds `TradingExecutor._execute_real_trade` (`trading/execution.py` lines
167-198): delegate to the broker's `place_order` (outcome `orderOk`),
then read the fill price from a fresh `get_ltp` call. -/
def execute_real_trade (orderOk : Bool) (ltp : Option ℚ) : Except ExecFailure ℚ :=
  if orderOk then
    match ltp with
    | some p => .ok p
    | none => .error .priceLookupFailed
  else
    .error .orderRejected

/-- Modelled from the spec: `trading/models.py` is not part of the source
tree (only its callers are); the `TradingSignal` fields follow spec §3 and
§6 (`symbol, direction, confidence, entry/target/stop prices, expiry,
is_executed, is_active`) restricted to the fields the embedded callers
read. `expires_at = none` models a NULL expiry. -/
structure TradingSignal where
  symbol : String
  signal_type : TradeAction
  confidence : ℚ
  entry_price : ℚ
  expires_at : Option ℤ
  is_active : Bool
  is_executed : Bool
deriving DecidableEq, Repr

/-- Modelled from the spec: `trading/models.py` is not part of the source
tree; the `TradingBot` fields are the configuration its embedded callers
read (paper flag, `position_size` percent, position cap, market-hours
gate). -/
structure TradingBot where
  is_paper_trading : Bool
  position_size : ℚ
  max_positions : ℕ
  trading_hours_only : Bool
deriving DecidableEq, Repr

/-- Embeds `TradingExecution.status` values. -/
inductive ExecStatus
  | PENDING
  | EXECUTED
  | FAILED
deriving DecidableEq, Repr

/-- The fields of a `TradingExecution` row the embedded code writes. -/
structure ExecutionRecord where
  quantity : ℤ
  requested_price : ℚ
  executed_price : Option ℚ
  status : ExecStatus
deriving DecidableEq, Repr

/-- Embeds `run_trading_bot.Command._get_pending_signals` (lines 143-151):
`filter(strategy=…, is_active=True, is_executed=False).exclude(signal_type='HOLD')
.order_by('-confidence', '-created_at')`. There is no expiry condition.
The `created_at` tie-break is not modelled (the input list order stands
in for creation order and `mergeSort` is stable). -/
def getPendingSignals (signals : List TradingSignal) : List TradingSignal :=
  (signals.filter fun s => s.is_active && !s.is_executed && !(s.signal_type = .HOLD)).mergeSort
    fun a b => b.confidence ≤ a.confidence

/-- Embeds `expires_at__lt=now` on one signal: SQL `expires_at < now`, false for
a NULL expiry. -/
def expiredBefore (s : TradingSignal) (now : ℤ) : Bool :=
  match s.expires_at with
  | none => false
  | some t => t < now

/-- The row predicate of `TradingBotService._process_pending_signals`
(`trading/services.py` lines 302-308): active, not executed, and not
excluded by `exclude(expires_at__lt=now)`. -/
def servicesSelected (s : TradingSignal) (now : ℤ) : Bool :=
  s.is_active && !s.is_executed && !expiredBefore s now

/-- The signal set `TradingBotService._process_pending_signals` iterates
over. -/
def selectPendingSignals (signals : List TradingSignal) (now : ℤ) : List TradingSignal :=
  signals.filter (servicesSelected · now)

/-- Embeds `TradingBotService._execute_signal` (`trading/services.py` lines
316-405). Returns the updated signal, the persisted ledger state and the
execution row (when one is created). `orderOk` is the broker collaborator's
answer for the non-paper branch. A SELL with no open position or a BUY
with an existing open position deactivates the signal; a BUY whose
computed quantity is 0 is skipped (a zero `entry_price` raises
`ZeroDivisionError`, which the caller's per-signal handler swallows with
the same no-effect outcome). The ledger is updated only in paper mode;
when `execute_trade` raises, the per-function handler marks the execution
FAILED but the signal stays executed (there is no enclosing transaction
here). A HOLD signal with no open position raises `AttributeError` on
`existing_position.total_quantity`, swallowed by the caller (no effect). -/
def servicesExecuteSignal (bot : TradingBot) (orderOk : Bool) (st : LedgerState)
    (s : TradingSignal) : TradingSignal × LedgerState × Option ExecutionRecord :=
  let existing := (lookupPos st.positions s.symbol).filter (·.is_open)
  match s.signal_type, existing with
  | .SELL, none => ({ s with is_active := false }, st, none)
  | .BUY, some _ => ({ s with is_active := false }, st, none)
  | ty, exOpt =>
      match (if ty = .BUY then
               some (ratTrunc (st.current_balance * (bot.position_size / 100) / s.entry_price))
             else
               exOpt.map (·.total_quantity)) with
      | none => (s, st, none)
      | some quantity =>
          if ty = .BUY ∧ quantity = 0 then
            (s, st, none)
          else
            let executed :=
              if bot.is_paper_trading then true else orderOk
            if executed then
              let exec : ExecutionRecord :=
                { quantity := quantity
                  requested_price := s.entry_price
                  executed_price := some s.entry_price
                  status := .EXECUTED }
              let s' := { s with is_executed := true }
              if bot.is_paper_trading then
                match execute_trade st s.symbol s.entry_price quantity ty with
                | .ok st' => (s', st', some exec)
                | .error _ => (s', st, some { exec with status := .FAILED })
              else
                (s', st, some exec)
            else
              (s, st, some { quantity := quantity
                             requested_price := s.entry_price
                             executed_price := none
                             status := .FAILED })

/-- One `TradingBotService` cycle over its signal table
(`_process_pending_signals`): each selected signal is driven through
`_execute_signal` in order; unselected rows are untouched. Per-signal
faults do not abort the rest of the cycle. -/
def servicesCycle (bot : TradingBot) (orderOk : Bool) (now : ℤ) :
    List TradingSignal → LedgerState → List TradingSignal × LedgerState
  | [], st => ([], st)
  | s :: rest, st =>
      if servicesSelected s now then
        let r := servicesExecuteSignal bot orderOk st s
        let next := servicesCycle bot orderOk now rest r.2.1
        (r.1 :: next.1, next.2)
      else
        let next := servicesCycle bot orderOk now rest st
        (s :: next.1, next.2)

/-- Embeds `run_trading_bot.Command._calculate_quantity` (lines 185-194):
`max(1, int(10 * confidence / 100))`. -/
def calculateQuantity (s : TradingSignal) : ℤ :=
  max 1 (ratTrunc (10 * (s.confidence / 100)))

/-- Embeds `RiskManager.validate_order` (`trading/execution.py` lines 331-384):
position-count limit, the placeholder daily-loss check (always passes)
and the market-hours gate when `trading_hours_only` is set. -/
def validateOrder (bot : TradingBot) (executedCount : ℕ) (marketOpen : Bool) : Bool :=
  decide (executedCount < bot.max_positions) && (!bot.trading_hours_only || marketOpen)

/-- Embeds `TradingExecutor.execute_signal` (`trading/execution.py` lines
34-100): place the order through the paper or real adapter; on success
mark the signal executed and record the fill. `_update_portfolio` calls
`PortfolioService.add_holding` / `reduce_holding`, which do not exist in
`portfolio/services.py`; the resulting `AttributeError` is swallowed by
its own handler, so the ledger state is returned unchanged on every
path. `_setup_exit_orders` only logs. -/
def executorExecuteSignal (bot : TradingBot) (s : TradingSignal) (quantity : ℤ)
    (ltp : Option ℚ) (orderOk : Bool) (st : LedgerState) :
    TradingSignal × ExecutionRecord × LedgerState :=
  let fill :=
    if bot.is_paper_trading then execute_paper_trade s.signal_type ltp
    else execute_real_trade orderOk ltp
  match fill with
  | .ok price =>
      ({ s with is_executed := true },
       { quantity := quantity
         requested_price := s.entry_price
         executed_price := some price
         status := .EXECUTED },
       st)
  | .error _ =>
      (s,
       { quantity := quantity
         requested_price := s.entry_price
         executed_price := none
         status := .FAILED },
       st)

/-- Embeds `run_trading_bot.Command._process_signal` (lines 153-183): compute
the quantity, run the risk validation, and only then call
`TradingExecutor.execute_signal`. No expiry check appears anywhere on
this path. -/
def processSignalCommand (bot : TradingBot) (s : TradingSignal) (executedCount : ℕ)
    (marketOpen : Bool) (ltp : Option ℚ) (orderOk : Bool) (st : LedgerState) :
    TradingSignal × Option ExecutionRecord × LedgerState :=
  let quantity := calculateQuantity s
  if validateOrder bot executedCount marketOpen then
    let r := executorExecuteSignal bot s quantity ltp orderOk st
    (r.1, some r.2.1, r.2.2)
  else
    (s, none, st)

/-! ## General lemmas about `execute_trade` -/

theorem execute_trade_balance {st st' : LedgerState} {sym : String} {price : ℚ}
    {qty : ℤ} {a : TradeAction}
    (h : execute_trade st sym price qty a = .ok st') :
    st'.current_balance = st.current_balance + balanceDelta ⟨sym, price, qty, a⟩ := by
  cases a
  · simp only [execute_trade, execute_buy_trade] at h
    split at h
    · cases h
      simp [balanceDelta, feeOf]
      ring
    · split at h
      · cases h
      · cases h
        simp [balanceDelta, feeOf]
        ring
  · simp only [execute_trade, execute_sell_trade] at h
    split at h
    · split at h
      · split at h
        · split at h
          · cases h
          · cases h
            simp [balanceDelta, feeOf]
        · cases h
      · cases h
    · cases h
  · simp only [execute_trade] at h
    cases h
    simp [balanceDelta]

theorem execTrades_balance {l : List TradeReq} {st st' : LedgerState}
    (h : execTrades st l = .ok st') :
    st'.current_balance = st.current_balance + (l.map balanceDelta).sum := by
  induction l generalizing st with
  | nil =>
      simp only [execTrades] at h
      cases h
      simp
  | cons r rs ih =>
      simp only [execTrades] at h
      split at h
      case h_1 st₁ hstep =>
        have hb := execute_trade_balance hstep
        have := ih h
        simp only [List.map_cons, List.sum_cons]
        rw [this, hb]
        ring
      case h_2 => cases h

theorem sum_balanceDelta_split (l : List TradeReq) :
    (l.map balanceDelta).sum =
      -(((l.filter fun r => r.action = TradeAction.BUY).map buyCost).sum)
        + ((l.filter fun r => r.action = TradeAction.SELL).map sellProceeds).sum := by
  induction l with
  | nil => simp
  | cons r rs ih =>
      cases hr : r.action <;>
        simp [List.filter_cons, hr, balanceDelta, buyCost, sellProceeds, ih] <;>
        ring

/-- C1: for every sequence of trades applied through
`PortfolioService.execute_trade` to one portfolio, the final
`current_balance` equals the initial balance minus the sum over BUY
trades of `price*quantity + fee` plus the sum over SELL trades of
`price*quantity - fee` (with the internally computed 0.03 % brokerage
fee), exactly; and every permutation of the sequence that also succeeds
ends with the same balance. -/
theorem c1_balance_after_trades (st : LedgerState) (l : List TradeReq)
    (st' : LedgerState) (h : execTrades st l = .ok st') :
    st'.current_balance =
        st.current_balance
          - ((l.filter fun r => r.action = TradeAction.BUY).map buyCost).sum
          + ((l.filter fun r => r.action = TradeAction.SELL).map sellProceeds).sum
      ∧ ∀ l' st'', l.Perm l' → execTrades st l' = .ok st'' →
          st''.current_balance = st'.current_balance := by
  have h1 := execTrades_balance h
  constructor
  · rw [h1, sum_balanceDelta_split]
    ring
  · intro l' st'' hperm h'
    have h2 := execTrades_balance h'
    rw [h1, h2, List.Perm.sum_eq (hperm.map balanceDelta)]

/-- Concrete trade sequence for the C1 witness: a BUY of 10 @ 100
followed by a SELL of 5 @ 120 on the same symbol. -/
def c1Reqs : List TradeReq :=
  [⟨"INFY", 100, 10, .BUY⟩, ⟨"INFY", 120, 5, .SELL⟩]

theorem c1_balance_after_trades_witness :
    (applyTrades ⟨50000, [], []⟩ c1Reqs).current_balance =
      (50000 : ℚ)
        - ((c1Reqs.filter fun r => r.action = TradeAction.BUY).map buyCost).sum
        + ((c1Reqs.filter fun r => r.action = TradeAction.SELL).map sellProceeds).sum :=
  (c1_balance_after_trades ⟨50000, [], []⟩ c1Reqs (applyTrades ⟨50000, [], []⟩ c1Reqs)
    (by norm_num [applyTrades, c1Reqs, execTrades, execute_trade, execute_buy_trade,
      execute_sell_trade, mkTrade, lookupPos, setPos])).1

theorem lookupPos_cons_self (ps : List (String × Position)) (sym : String) (p : Position) :
    lookupPos ((sym, p) :: ps) sym = some p := by
  simp [lookupPos, List.find?_cons_of_pos]

theorem lookupPos_setPos {ps : List (String × Position)} {sym : String} {pos : Position}
    (p' : Position) (h : lookupPos ps sym = some pos) :
    lookupPos (setPos ps sym p') sym = some p' := by
  induction ps with
  | nil => simp [lookupPos] at h
  | cons e rest ih =>
      by_cases he : e.1 = sym
      · simp [lookupPos, setPos, List.find?, he]
      · have h' : lookupPos rest sym = some pos := by
          simpa [lookupPos, List.find?, he] using h
        simpa [lookupPos, setPos, List.find?, he] using ih h'

theorem execute_trade_appends_trade {st st' : LedgerState} {sym : String} {price : ℚ}
    {qty : ℤ} {a : TradeAction}
    (h : execute_trade st sym price qty a = .ok st') :
    ∃ t : Trade, st'.trades = t :: st.trades ∧
      t.brokerage_fee = price * qty * (3 / 10000) := by
  cases a
  · simp only [execute_trade, execute_buy_trade] at h
    split at h
    · cases h
      exact ⟨_, rfl, rfl⟩
    · split at h
      · cases h
      · cases h
        exact ⟨_, rfl, rfl⟩
  · simp only [execute_trade, execute_sell_trade] at h
    split at h
    · split at h
      · split at h
        · split at h
          · cases h
          · cases h
            exact ⟨_, rfl, rfl⟩
        · cases h
      · cases h
    · cases h
  · simp only [execute_trade] at h
    cases h
    exact ⟨_, rfl, rfl⟩

/-- C10: every successful `execute_trade` call appends exactly one Trade
row whose `brokerage_fee` is the internally computed
`price * quantity * 0.0003` (the public interface takes no fee
argument), and the very same fee is debited on a BUY and credited
against the proceeds on a SELL. -/
theorem c10_internal_fee (st : LedgerState) (sym : String) (price : ℚ) (qty : ℤ)
    (a : TradeAction) (st' : LedgerState)
    (h : execute_trade st sym price qty a = .ok st') :
    ∃ t : Trade, st'.trades = t :: st.trades ∧
      t.brokerage_fee = price * qty * (3 / 10000) ∧
      (a = TradeAction.BUY →
        st'.current_balance = st.current_balance - (price * qty + t.brokerage_fee)) ∧
      (a = TradeAction.SELL →
        st'.current_balance = st.current_balance + (price * qty - t.brokerage_fee)) := by
  obtain ⟨t, ht, hfee⟩ := execute_trade_appends_trade h
  have hb := execute_trade_balance h
  refine ⟨t, ht, hfee, fun hbuy => ?_, fun hsell => ?_⟩
  · subst hbuy
    rw [hb, hfee]
    simp [balanceDelta, feeOf]
    ring
  · subst hsell
    rw [hb, hfee]
    simp [balanceDelta, feeOf]

theorem c10_internal_fee_witness :
    ∃ t : Trade,
      (applyTrade ⟨1000, [], []⟩ "SBI" 50 2 .BUY).trades = t :: ([] : List Trade) ∧
      t.brokerage_fee = (50 : ℚ) * (2 : ℤ) * (3 / 10000) ∧
      (TradeAction.BUY = TradeAction.BUY →
        (applyTrade ⟨1000, [], []⟩ "SBI" 50 2 .BUY).current_balance =
          (1000 : ℚ) - ((50 : ℚ) * (2 : ℤ) + t.brokerage_fee)) ∧
      (TradeAction.BUY = TradeAction.SELL →
        (applyTrade ⟨1000, [], []⟩ "SBI" 50 2 .BUY).current_balance =
          (1000 : ℚ) + ((50 : ℚ) * (2 : ℤ) - t.brokerage_fee)) :=
  c10_internal_fee ⟨1000, [], []⟩ "SBI" 50 2 .BUY (applyTrade ⟨1000, [], []⟩ "SBI" 50 2 .BUY)
    (by norm_num [applyTrade, execute_trade, execute_buy_trade, mkTrade, lookupPos])

/-- C3: a SELL through `execute_trade` whose quantity exceeds the open
position's `total_quantity` raises the insufficient-position error inside
the transaction, so nothing is persisted: the balance, the position rows
and the trade rows are exactly the pre-call state. -/
theorem c3_insufficient_sell_rejected (st : LedgerState) (sym : String) (price : ℚ)
    (qty : ℤ) (pos : Position)
    (hpos : lookupPos st.positions sym = some pos) (hopen : pos.is_open = true)
    (hq : pos.total_quantity < qty) :
    execute_trade st sym price qty .SELL = .error .insufficientPosition ∧
      applyTrade st sym price qty .SELL = st := by
  have herr : execute_trade st sym price qty .SELL = .error .insufficientPosition := by
    simp only [execute_trade, execute_sell_trade, hpos, hopen, if_true]
    rw [if_neg (not_le.mpr hq)]
  exact ⟨herr, by simp [applyTrade, herr]⟩

theorem c3_insufficient_sell_rejected_witness :
    execute_trade ⟨1000, [("ITC", ⟨5, 100, 500, true⟩)], []⟩ "ITC" 110 6 .SELL =
        .error .insufficientPosition ∧
      applyTrade ⟨1000, [("ITC", ⟨5, 100, 500, true⟩)], []⟩ "ITC" 110 6 .SELL =
        ⟨1000, [("ITC", ⟨5, 100, 500, true⟩)], []⟩ :=
  c3_insufficient_sell_rejected ⟨1000, [("ITC", ⟨5, 100, 500, true⟩)], []⟩ "ITC" 110 6
    ⟨5, 100, 500, true⟩ (by simp [lookupPos]) rfl (by decide)

/-- C4 counterexample: `execute_trade` accepts the malformed input
`price = -5 ≤ 0` (BUY of 3 shares) instead of rejecting it: the call
succeeds, a Trade row is created, the balance changes and a Position row
is created. -/
theorem c4_counterexample :
    ((-5 : ℚ) ≤ 0) ∧
    (execute_trade ⟨50000, [], []⟩ "XYZ" (-5) 3 .BUY).isOk = true ∧
    (applyTrade ⟨50000, [], []⟩ "XYZ" (-5) 3 .BUY).trades ≠ ([] : List Trade) ∧
    (applyTrade ⟨50000, [], []⟩ "XYZ" (-5) 3 .BUY).current_balance ≠ 50000 ∧
    (applyTrade ⟨50000, [], []⟩ "XYZ" (-5) 3 .BUY).positions ≠
      ([] : List (String × Position)) := by
  refine ⟨by norm_num, ?_, ?_, ?_, ?_⟩ <;>
    norm_num [applyTrade, execute_trade, execute_buy_trade, mkTrade, lookupPos, Except.isOk,
      Except.toBool]

/-- C4 amended: `execute_trade` performs no input validation at all. A
BUY with `price ≤ 0` or `quantity < 1` on a symbol without a position row
is not rejected: it succeeds, debits `price*quantity` plus the 0.03 % fee
(increasing the balance when the price is negative), creates the Trade
row and creates a Position. -/
theorem c4_no_validation (st : LedgerState) (sym : String) (price : ℚ) (qty : ℤ)
    (hmal : price ≤ 0 ∨ qty < 1)
    (hnew : lookupPos st.positions sym = none) :
    execute_trade st sym price qty .BUY =
      .ok { current_balance :=
              st.current_balance - (price * qty + price * qty * (3 / 10000))
            positions :=
              (sym, { total_quantity := qty
                      average_price := price
                      invested_amount := price * qty + price * qty * (3 / 10000)
                      is_open := true }) :: st.positions
            trades := mkTrade sym price qty .BUY (price * qty * (3 / 10000)) :: st.trades } := by
  simp only [execute_trade, execute_buy_trade, hnew]

theorem c4_no_validation_witness :
    ((-2 : ℚ) ≤ 0 ∨ (3 : ℤ) < 1) ∧
    execute_trade ⟨100, [], []⟩ "Z" (-2) 3 .BUY =
      .ok { current_balance :=
              (100 : ℚ) - ((-2 : ℚ) * (3 : ℤ) + (-2 : ℚ) * (3 : ℤ) * (3 / 10000))
            positions :=
              [("Z", { total_quantity := 3
                       average_price := (-2 : ℚ)
                       invested_amount := (-2 : ℚ) * (3 : ℤ) + (-2 : ℚ) * (3 : ℤ) * (3 / 10000)
                       is_open := true })]
            trades := [mkTrade "Z" (-2) 3 .BUY ((-2 : ℚ) * (3 : ℤ) * (3 / 10000))] } :=
  ⟨Or.inl (by norm_num),
    c4_no_validation ⟨100, [], []⟩ "Z" (-2) 3 (Or.inl (by norm_num)) (by simp [lookupPos])⟩

/-- C6 counterexample: from balance 50000 with no position, a BUY of
10 @ 100 through `execute_trade` leaves the balance at 48999.70 (the fee
is the internal 0.03 % = 0.30, not 3) and an open position with
`average_price = 100` (the creation path stores the raw price, not
100.3), refuting both numbers of the claimed scenario. -/
theorem c6_counterexample :
    (applyTrade ⟨50000, [], []⟩ "REL" 100 10 .BUY).current_balance = 489997 / 10 ∧
    lookupPos (applyTrade ⟨50000, [], []⟩ "REL" 100 10 .BUY).positions "REL" =
      some ⟨10, 100, 10003 / 10, true⟩ ∧
    (489997 / 10 : ℚ) ≠ 50000 - 1003 ∧
    (100 : ℚ) ≠ 1003 / 10 := by
  refine ⟨?_, ?_, by norm_num, by norm_num⟩ <;>
    norm_num [applyTrade, execute_trade, execute_buy_trade, mkTrade, lookupPos]

/-- C6 amended: starting from any balance `B` with no position row for
the symbol, a BUY of 10 shares at price 100 debits the internally
computed cost 1000.30 (fee 0.30 = 0.03 % of 1000; no ₹3 fee can be
supplied because the interface takes no fee argument) and creates an open
position with `total_quantity = 10`, `average_price = 100` and
`invested_amount = 1000.30`. -/
theorem c6_scenario_a (st : LedgerState) (sym : String)
    (hnew : lookupPos st.positions sym = none) :
    execute_trade st sym 100 10 .BUY =
      .ok { current_balance := st.current_balance - 10003 / 10
            positions :=
              (sym, { total_quantity := 10
                      average_price := 100
                      invested_amount := 10003 / 10
                      is_open := true }) :: st.positions
            trades := mkTrade sym 100 10 .BUY (3 / 10) :: st.trades } := by
  simp only [execute_trade, execute_buy_trade, hnew, mkTrade]
  norm_num

theorem c6_scenario_a_witness :
    execute_trade ⟨50000, [], []⟩ "HCL" 100 10 .BUY =
      .ok { current_balance := (⟨50000, [], []⟩ : LedgerState).current_balance - 10003 / 10
            positions :=
              ("HCL", { total_quantity := 10
                        average_price := 100
                        invested_amount := 10003 / 10
                        is_open := true }) :: (⟨50000, [], []⟩ : LedgerState).positions
            trades := mkTrade "HCL" 100 10 .BUY (3 / 10) ::
              (⟨50000, [], []⟩ : LedgerState).trades } :=
  c6_scenario_a ⟨50000, [], []⟩ "HCL" (by simp [lookupPos])

/-- C2 counterexample: the very first BUY that creates a Position already
violates the claimed invariant by far more than one cent: a BUY of
10 @ 100 creates `invested_amount = 1000.30` but
`average_price * total_quantity = 1000`, a deviation of 0.30 > 0.01. -/
theorem c2_counterexample :
    lookupPos (applyTrade ⟨50000, [], []⟩ "TCS" 100 10 .BUY).positions "TCS" =
        some ⟨10, 100, 10003 / 10, true⟩ ∧
    (1 / 100 : ℚ) < devPos ⟨10, 100, 10003 / 10, true⟩ := by
  constructor
  · norm_num [applyTrade, execute_trade, execute_buy_trade, mkTrade, lookupPos]
  · norm_num [devPos]

/-- C2 amended: the invariant `invested_amount = average_price *
total_quantity` does not hold after the creating BUY, where the deviation
equals that trade's whole brokerage fee `price*quantity*0.0003` (0.30 on
a 1000 buy, beyond any one-cent tolerance, because the creation path
stores `average_price = price` while `invested_amount` includes the fee).
It holds exactly after every BUY that updates an existing position row
(the average is recomputed as `invested/quantity`), and every partial
SELL preserves the deviation and the average unchanged. -/
theorem c2_invariant_characterization (st : LedgerState) (sym : String) (price : ℚ)
    (qty : ℤ) (st' : LedgerState) :
    (lookupPos st.positions sym = none →
      execute_trade st sym price qty .BUY = .ok st' →
      lookupPos st'.positions sym =
          some ⟨qty, price, price * qty + price * qty * (3 / 10000), true⟩ ∧
        devPos ⟨qty, price, price * qty + price * qty * (3 / 10000), true⟩ =
          price * qty * (3 / 10000))
    ∧ (∀ pos : Position, lookupPos st.positions sym = some pos →
        execute_trade st sym price qty .BUY = .ok st' →
        ∃ pos' : Position, lookupPos st'.positions sym = some pos' ∧ devPos pos' = 0)
    ∧ (∀ pos : Position, lookupPos st.positions sym = some pos →
        pos.total_quantity - qty ≠ 0 →
        execute_trade st sym price qty .SELL = .ok st' →
        ∃ pos' : Position, lookupPos st'.positions sym = some pos' ∧
          devPos pos' = devPos pos ∧ pos'.average_price = pos.average_price ∧
          pos'.total_quantity = pos.total_quantity - qty) := by
  refine ⟨fun hnone h => ?_, fun pos hpos h => ?_, fun pos hpos hq h => ?_⟩
  · simp only [execute_trade, execute_buy_trade, hnone] at h
    cases h
    refine ⟨lookupPos_cons_self _ _ _, ?_⟩
    simp [devPos]
  · simp only [execute_trade, execute_buy_trade, hpos] at h
    split at h
    · cases h
    case isFalse hne =>
      cases h
      refine ⟨_, lookupPos_setPos _ hpos, ?_⟩
      have hcast : ((pos.total_quantity + qty : ℤ) : ℚ) ≠ 0 := by
        exact_mod_cast hne
      simp only [devPos]
      rw [div_mul_cancel₀ _ hcast]
      ring
  · simp only [execute_trade, execute_sell_trade, hpos] at h
    split at h
    · split at h
      · split at h
        · cases h
        · cases h
          refine ⟨_, lookupPos_setPos _ hpos, ?_, rfl, rfl⟩
          simp only [devPos]
          push_cast
          ring
      · cases h
    · cases h

theorem c2_invariant_characterization_witness :
    ∃ pos' : Position,
      lookupPos (applyTrade ⟨1000, [("ACC", ⟨10, 100, 10003 / 10, true⟩)], []⟩
          "ACC" 120 10 .BUY).positions "ACC" = some pos' ∧
      devPos pos' = 0 :=
  (c2_invariant_characterization ⟨1000, [("ACC", ⟨10, 100, 10003 / 10, true⟩)], []⟩
      "ACC" 120 10
      (applyTrade ⟨1000, [("ACC", ⟨10, 100, 10003 / 10, true⟩)], []⟩ "ACC" 120 10 .BUY)).2.1
    ⟨10, 100, 10003 / 10, true⟩ (by simp [lookupPos])
    (by norm_num [applyTrade, execute_trade, execute_buy_trade, mkTrade, lookupPos, setPos])

/-! ## Rounding lemmas for the paper adapter -/

theorem roundHalfUp2_of_nonneg {x : ℚ} (hx : 0 ≤ x) :
    roundHalfUp2 x = (⌊x * 100 + 1/2⌋ : ℚ) / 100 := by
  simp [roundHalfUp2, hx]

theorem roundHalfUp2_den (x : ℚ) : ∃ n : ℤ, roundHalfUp2 x = (n : ℚ) / 100 := by
  by_cases hx : 0 ≤ x
  · exact ⟨⌊x * 100 + 1/2⌋, by simp [roundHalfUp2, hx]⟩
  · refine ⟨-⌊-x * 100 + 1/2⌋, ?_⟩
    simp [roundHalfUp2, hx, neg_div]

theorem roundHalfUp2_close {x : ℚ} (hx : 0 ≤ x) : |roundHalfUp2 x - x| ≤ 1 / 200 := by
  rw [roundHalfUp2_of_nonneg hx, abs_le]
  have h1 : (⌊x * 100 + 1/2⌋ : ℚ) ≤ x * 100 + 1/2 := Int.floor_le _
  have h2 : x * 100 + 1/2 < (⌊x * 100 + 1/2⌋ : ℚ) + 1 := Int.lt_floor_add_one _
  constructor <;> nlinarith

/-- C9: the paper adapter succeeds exactly when the price lookup
succeeds, and on a lookup result `p` it reports the fill
`roundHalfUp2` of `p` adjusted by the fixed 0.1 % slippage (up for BUY,
down otherwise): a value with exactly 2 decimal places within half a
cent of the adjusted price. -/
theorem c9_paper_fill (ty : TradeAction) (ltp : Option ℚ) :
    ((execute_paper_trade ty ltp).isOk = true ↔ ltp.isSome = true)
    ∧ ∀ p : ℚ, ltp = some p →
        execute_paper_trade ty ltp =
            .ok (roundHalfUp2 (if ty = .BUY then p * (1 + 1/1000) else p * (1 - 1/1000)))
          ∧ (∃ n : ℤ,
              roundHalfUp2 (if ty = .BUY then p * (1 + 1/1000) else p * (1 - 1/1000)) =
                (n : ℚ) / 100)
          ∧ (0 ≤ p →
              |roundHalfUp2 (if ty = .BUY then p * (1 + 1/1000) else p * (1 - 1/1000))
                  - (if ty = .BUY then p * (1 + 1/1000) else p * (1 - 1/1000))| ≤ 1 / 200) := by
  constructor
  · cases ltp <;> simp [execute_paper_trade, Except.isOk, Except.toBool]
  · rintro p rfl
    refine ⟨rfl, roundHalfUp2_den _, fun hp => ?_⟩
    refine roundHalfUp2_close ?_
    split <;> nlinarith

theorem c9_paper_fill_witness :
    execute_paper_trade .BUY (some 100) =
        .ok (roundHalfUp2 (if TradeAction.BUY = TradeAction.BUY
            then (100 : ℚ) * (1 + 1/1000) else (100 : ℚ) * (1 - 1/1000)))
      ∧ (∃ n : ℤ,
          roundHalfUp2 (if TradeAction.BUY = TradeAction.BUY
              then (100 : ℚ) * (1 + 1/1000) else (100 : ℚ) * (1 - 1/1000)) = (n : ℚ) / 100)
      ∧ ((0 : ℚ) ≤ 100 →
          |roundHalfUp2 (if TradeAction.BUY = TradeAction.BUY
                then (100 : ℚ) * (1 + 1/1000) else (100 : ℚ) * (1 - 1/1000))
              - (if TradeAction.BUY = TradeAction.BUY
                then (100 : ℚ) * (1 + 1/1000) else (100 : ℚ) * (1 - 1/1000))| ≤ 1 / 200) :=
  (c9_paper_fill .BUY (some 100)).2 100 rfl

/-- A paper-trading bot configuration used by the concrete signal-layer
theorems. -/
def paperBot : TradingBot :=
  { is_paper_trading := true, position_size := 10, max_positions := 5,
    trading_hours_only := false }

/-- The same configuration with real (broker) execution. -/
def realBot : TradingBot :=
  { is_paper_trading := false, position_size := 10, max_positions := 5,
    trading_hours_only := false }

/-- C5: a signal whose `is_executed` flag is already set is excluded by
both signal-selection queries (`run_trading_bot._get_pending_signals`
and `TradingBotService._process_pending_signals` filter on
`is_executed=False`), so a second submission through either loop is
rejected before execution: a cycle over already-executed signals leaves
every signal row and the whole ledger state exactly as they were after
the first execution. -/
theorem c5_already_executed_not_rebooked (s : TradingSignal)
    (hs : s.is_executed = true) :
    (∀ signals : List TradingSignal, s ∉ getPendingSignals signals)
    ∧ ∀ (bot : TradingBot) (orderOk : Bool) (now : ℤ)
        (signals : List TradingSignal) (st : LedgerState),
        (∀ t ∈ signals, t.is_executed = true) →
        servicesCycle bot orderOk now signals st = (signals, st) := by
  constructor
  · intro signals hmem
    rw [getPendingSignals, List.mem_mergeSort, List.mem_filter] at hmem
    simp [hs] at hmem
  · intro bot orderOk now signals st hall
    induction signals generalizing st with
    | nil => rfl
    | cons t rest ih =>
        have ht : t.is_executed = true := hall t (by simp)
        have hsel : servicesSelected t now = false := by
          simp [servicesSelected, ht]
        simp only [servicesCycle, hsel, Bool.false_eq_true, if_false]
        rw [ih st (fun u hu => hall u (List.mem_cons_of_mem _ hu))]

theorem c5_already_executed_not_rebooked_witness :
    (⟨"LT", .BUY, 90, 100, none, true, true⟩ : TradingSignal) ∉
        getPendingSignals [⟨"LT", .BUY, 90, 100, none, true, true⟩]
      ∧ servicesCycle paperBot true 0 [⟨"LT", .BUY, 90, 100, none, true, true⟩]
          ⟨50000, [], []⟩ =
        ([⟨"LT", .BUY, 90, 100, none, true, true⟩], ⟨50000, [], []⟩) :=
  ⟨(c5_already_executed_not_rebooked ⟨"LT", .BUY, 90, 100, none, true, true⟩ rfl).1 _,
    (c5_already_executed_not_rebooked ⟨"LT", .BUY, 90, 100, none, true, true⟩ rfl).2
      paperBot true 0 _ _ (by simp)⟩

/-- C8 amended: only the `TradingBotService` loop guards against expiry —
its query excludes a signal whose `expires_at` lies before `now`, so that
loop never executes it and leaves the row completely untouched (in
particular `is_executed` stays false and the signal is *not* marked
inactive). The `run_trading_bot` command's selection applies no expiry
condition at all: an expired signal that is active, unexecuted and not
HOLD is still selected there and can be executed. -/
theorem c8_expired_signal_handling (s : TradingSignal) (now t : ℤ)
    (ht : s.expires_at = some t) (hlt : t < now) :
    (∀ signals : List TradingSignal, s ∉ selectPendingSignals signals now)
    ∧ (∀ (bot : TradingBot) (orderOk : Bool) (st : LedgerState),
        servicesCycle bot orderOk now [s] st = ([s], st))
    ∧ (∀ signals : List TradingSignal, s ∈ signals → s.is_active = true →
        s.is_executed = false → s.signal_type ≠ .HOLD →
        s ∈ getPendingSignals signals) := by
  have hexp : expiredBefore s now = true := by
    simp [expiredBefore, ht, hlt]
  have hsel : servicesSelected s now = false := by
    simp [servicesSelected, hexp]
  refine ⟨fun signals hmem => ?_, fun bot orderOk st => ?_, fun signals hmem ha he hh => ?_⟩
  · rw [selectPendingSignals, List.mem_filter] at hmem
    rw [hsel] at hmem
    exact absurd hmem.2 (by simp)
  · simp [servicesCycle, hsel]
  · rw [getPendingSignals, List.mem_mergeSort, List.mem_filter]
    exact ⟨hmem, by simp [ha, he, hh]⟩

theorem c8_expired_signal_handling_witness :
    (⟨"PNB", .BUY, 100, 40, some 0, true, false⟩ : TradingSignal) ∉
        selectPendingSignals [⟨"PNB", .BUY, 100, 40, some 0, true, false⟩] 100
      ∧ servicesCycle paperBot true 100 [⟨"PNB", .BUY, 100, 40, some 0, true, false⟩]
          ⟨50000, [], []⟩ =
        ([⟨"PNB", .BUY, 100, 40, some 0, true, false⟩], ⟨50000, [], []⟩)
      ∧ (⟨"PNB", .BUY, 100, 40, some 0, true, false⟩ : TradingSignal) ∈
          getPendingSignals [⟨"PNB", .BUY, 100, 40, some 0, true, false⟩] :=
  ⟨(c8_expired_signal_handling ⟨"PNB", .BUY, 100, 40, some 0, true, false⟩ 100 0 rfl
      (by decide)).1 _,
    (c8_expired_signal_handling ⟨"PNB", .BUY, 100, 40, some 0, true, false⟩ 100 0 rfl
      (by decide)).2.1 paperBot true _,
    (c8_expired_signal_handling ⟨"PNB", .BUY, 100, 40, some 0, true, false⟩ 100 0 rfl
      (by decide)).2.2 _ (by simp) rfl rfl (by decide)⟩

/-- C8 counterexample: an already-expired signal (`expires_at = 0`, cycle
time 100) with confidence 100 passes the `run_trading_bot` selection
(which never looks at `expires_at`) and is then executed by
`_process_signal` through the paper adapter: afterwards its
`is_executed` flag is true, refuting "never executed … marked
inactive". -/
theorem c8_counterexample :
    expiredBefore ⟨"PNB", .SELL, 100, 40, some 0, true, false⟩ 100 = true
      ∧ (⟨"PNB", .SELL, 100, 40, some 0, true, false⟩ : TradingSignal) ∈
          getPendingSignals [⟨"PNB", .SELL, 100, 40, some 0, true, false⟩]
      ∧ (processSignalCommand paperBot ⟨"PNB", .SELL, 100, 40, some 0, true, false⟩
            0 false (some 40) true ⟨50000, [], []⟩).1.is_executed = true := by
  refine ⟨by decide, ?_, ?_⟩
  · rw [getPendingSignals, List.mem_mergeSort, List.mem_filter]
    exact ⟨by simp, by decide⟩
  · simp [processSignalCommand, validateOrder, paperBot, executorExecuteSignal,
      execute_paper_trade]

/-- C7 amended: the two adapters do not feed the same Ledger operations
in `TradingBotService._execute_signal`: a real (non-paper) execution
leaves the ledger state untouched on every path, while a paper execution
with the same fill price applies `execute_trade` to it; so the adapter
choice changes the resulting balance whenever the executed trade has a
nonzero net amount. (By contrast, `TradingExecutor` makes the identical —
there effect-free — `_update_portfolio` call for both adapters.) -/
theorem c7_adapter_ledger_effects :
    (∀ (bot : TradingBot) (orderOk : Bool) (st : LedgerState) (s : TradingSignal),
      bot.is_paper_trading = false →
      (servicesExecuteSignal bot orderOk st s).2.1 = st)
    ∧ (∀ (bot : TradingBot) (st : LedgerState) (s : TradingSignal),
        bot.is_paper_trading = true → s.signal_type = .BUY →
        (lookupPos st.positions s.symbol).filter (·.is_open) = none →
        ratTrunc (st.current_balance * (bot.position_size / 100) / s.entry_price) ≠ 0 →
        (servicesExecuteSignal bot true st s).2.1 =
          applyTrade st s.symbol s.entry_price
            (ratTrunc (st.current_balance * (bot.position_size / 100) / s.entry_price))
            .BUY) := by
  constructor
  · intro bot orderOk st s hpaper
    simp only [servicesExecuteSignal, hpaper, Bool.false_eq_true, if_false]
    split
    · rfl
    · rfl
    · split
      · rfl
      · split
        · rfl
        · split
          · rfl
          · rfl
  · intro bot st s hpaper hty hnopos hq
    simp only [servicesExecuteSignal, hpaper, hty, hnopos, if_true, reduceIte]
    simp only [hq, and_false, if_false]
    cases hres : execute_trade st s.symbol s.entry_price
        (ratTrunc (st.current_balance * (bot.position_size / 100) / s.entry_price)) .BUY <;>
      simp [applyTrade, hres]

theorem c7_adapter_ledger_effects_witness :
    (servicesExecuteSignal realBot true ⟨50000, [], []⟩
        ⟨"HDFC", .BUY, 80, 100, none, true, false⟩).2.1 = ⟨50000, [], []⟩
      ∧ (servicesExecuteSignal paperBot true ⟨50000, [], []⟩
            ⟨"HDFC", .BUY, 80, 100, none, true, false⟩).2.1 =
          applyTrade ⟨50000, [], []⟩ "HDFC" 100
            (ratTrunc ((50000 : ℚ) * ((10 : ℚ) / 100) / 100)) .BUY :=
  ⟨c7_adapter_ledger_effects.1 realBot true ⟨50000, [], []⟩
      ⟨"HDFC", .BUY, 80, 100, none, true, false⟩ rfl,
    c7_adapter_ledger_effects.2 paperBot ⟨50000, [], []⟩
      ⟨"HDFC", .BUY, 80, 100, none, true, false⟩ rfl rfl (by simp [lookupPos])
      (by norm_num [ratTrunc, paperBot])⟩

/-- C7 counterexample: the same BUY signal, executed successfully with
the same fill price (the entry price 100) once by a paper bot and once by
a real bot through `TradingBotService._execute_signal`: both executions
report EXECUTED at price 100, yet the paper run debits the ledger
(balance 44998.50) while the real run leaves it at 50000 — the adapter
choice changes the resulting portfolio balance. -/
theorem c7_counterexample :
    (servicesExecuteSignal paperBot true ⟨50000, [], []⟩
        ⟨"HDFC", .BUY, 80, 100, none, true, false⟩).2.2 =
        some ⟨50, 100, some 100, .EXECUTED⟩
      ∧ (servicesExecuteSignal realBot true ⟨50000, [], []⟩
            ⟨"HDFC", .BUY, 80, 100, none, true, false⟩).2.2 =
          some ⟨50, 100, some 100, .EXECUTED⟩
      ∧ (servicesExecuteSignal paperBot true ⟨50000, [], []⟩
            ⟨"HDFC", .BUY, 80, 100, none, true, false⟩).2.1.current_balance = 89997 / 2
      ∧ (servicesExecuteSignal realBot true ⟨50000, [], []⟩
            ⟨"HDFC", .BUY, 80, 100, none, true, false⟩).2.1.current_balance = 50000
      ∧ (89997 / 2 : ℚ) ≠ 50000 := by
  refine ⟨?_, ?_, ?_, ?_, by norm_num⟩ <;>
    norm_num [servicesExecuteSignal, paperBot, realBot, ratTrunc, lookupPos,
      execute_trade, execute_buy_trade, mkTrade]
